import Mathlib

set_option maxRecDepth 8000

/-!
Verification of the `spacetime-token-cli` tool (src/main.rs).

The program manages named credential profiles (profile name → bearer token)
stored in a TOML file (`profiles.toml`), and copies a selected token into the
external SpacetimeDB CLI configuration document (`cli.toml`) under a
configurable key.

Shallow embedding conventions:
* Strings are Lean `String`; token/character positions follow the character
  level of the source (`mask_token` reads the first/last characters).
* The profile store document is an association list `Profiles` — the
  in-memory `HashMap<String, String>` of the source, with `insertKV`
  (HashMap::insert), `lookupKV` (HashMap::get) and `containsKey`
  (HashMap::contains_key).
* The external `cli.toml` document (`toml_edit::DocumentMut`) is the
  association list `Doc` of key/item pairs; `getKey` models `Document::get`
  and `setKey` models index assignment `doc[key] = Item::Value(..)`
  (replace in place when the key exists, append otherwise).  An `Item` is
  either a string value or some non-string TOML item (`Item.nonStr`).
* TOML (de)serialization of the profile store is an external library
  collaborator, modelled as an abstract `ProfilesCodec` (a parse and a
  serialize function); theorems that depend on library behaviour take the
  needed property as a hypothesis, and `testCodec` is a concrete sample
  instance used to witness them.
* The file system is the `World` record: contents of the profiles file
  (raw text or absent), contents of the external cli config file (a parsed
  document, unparsable garbage, or absent), and whether the parent
  directory of the cli config file exists (`fs::write` fails without it;
  `fs::create_dir_all` creates it).
* Every command handler is a pure function `World → World × Option String`
  (final file system state, and `some message` when the command bails with
  a fatal error / `none` on exit code 0), mirroring the control flow of the
  corresponding `match cli.command` arm in `main`.
-/

/-- The four configurable application settings (struct `AppSettings`). -/
structure AppSettings where
  profiles_filename : String
  cli_config_dir_from_home : String
  cli_config_filename : String
  cli_token_key : String
deriving DecidableEq

/-- `AppSettings::default()` from the source. -/
def defaultSettings : AppSettings :=
  { profiles_filename := "profiles.toml"
    cli_config_dir_from_home := ".config/spacetime"
    cli_config_filename := "cli.toml"
    cli_token_key := "spacetimedb_token" }

/-- A TOML item in the external cli config document: a string value, or any
non-string item (on which `Item::as_str` returns `None`). -/
inductive Item where
  | str (s : String)
  | nonStr
deriving DecidableEq

/-- The external cli config document: the root table of a
`toml_edit::DocumentMut`, as an association list. -/
abbrev Doc := List (String × Item)

/-- `DocumentMut::get(key)`: first binding of the key, if any. -/
def getKey : Doc → String → Option Item
  | [], _ => none
  | (k, v) :: rest, key => if k = key then some v else getKey rest key

/-- Index assignment `doc[key] = item` in `toml_edit`: replaces the value in
place when the key is present, appends the binding otherwise. -/
def setKey : Doc → String → Item → Doc
  | [], key, item => [(key, item)]
  | (k, v) :: rest, key, item =>
      if k = key then (key, item) :: rest else (k, v) :: setKey rest key item

/-- The in-memory profile store `UserProfiles(HashMap<String, String>)`. -/
abbrev Profiles := List (String × String)

/-- `HashMap::get` on the profile store. -/
def lookupKV : Profiles → String → Option String
  | [], _ => none
  | (k, v) :: rest, key => if k = key then some v else lookupKV rest key

/-- `HashMap::insert` on the profile store: overwrite or add. -/
def insertKV : Profiles → String → String → Profiles
  | [], key, val => [(key, val)]
  | (k, v) :: rest, key, val =>
      if k = key then (key, val) :: rest else (k, v) :: insertKV rest key val

/-- `HashMap::contains_key` on the profile store. -/
def containsKey (m : Profiles) (key : String) : Bool :=
  (lookupKV m key).isSome

/-- Contents of the external cli config file: a document that parses, or
content on which `str::parse::<DocumentMut>` fails. -/
inductive CliContent where
  | doc (d : Doc)
  | garbage
deriving DecidableEq

/-- The TOML (de)serialization library for the profile store file, treated
as an external collaborator: `toml::from_str` (with `none` for a parse
error) and `toml::to_string_pretty`. -/
structure ProfilesCodec where
  parse : String → Option Profiles
  ser : Profiles → String

/-- The file-system state the program manipulates. -/
structure World where
  profilesFile : Option String
  cliFile : Option CliContent
  cliDirExists : Bool
deriving DecidableEq

/-- Ambient context of one invocation: the TOML library, the user's config
directory (`dirs::config_dir()`), and the loaded application settings. -/
structure Ctx where
  codec : ProfilesCodec
  cfgDir : String
  settings : AppSettings

/-- `get_profiles_filepath`: the profiles file lives in
`<config dir>/spacetime-token/<profiles_filename>`. -/
def profilesPath (ctx : Ctx) : String :=
  ctx.cfgDir ++ "/spacetime-token/" ++ ctx.settings.profiles_filename

/-- The check `content.trim().is_empty()` of the source: the content
consists only of whitespace characters. -/
def isBlank (content : String) : Bool :=
  content.toList.all Char.isWhitespace

/-- `read_profiles`: absent file → create empty file, return empty store;
whitespace-only content → empty store without parsing; otherwise parse,
failing with a message that names the profiles file path. -/
def read_profiles (ctx : Ctx) (w : World) : Except String (World × Profiles) :=
  match w.profilesFile with
  | none => .ok ({ w with profilesFile := some "" }, [])
  | some content =>
      if isBlank content then .ok (w, [])
      else
        match ctx.codec.parse content with
        | some m => .ok (w, m)
        | none =>
            .error ("Failed to parse profiles file at " ++ profilesPath ctx
              ++ ". Ensure it is valid TOML or empty.")

/-- `write_profiles`: serialize the full mapping and overwrite the file. -/
def write_profiles (ctx : Ctx) (w : World) (m : Profiles) : World :=
  { w with profilesFile := some (ctx.codec.ser m) }

/-- `read_cli_toml`: read and parse the external cli config file. -/
def read_cli_toml (ctx : Ctx) (w : World) : Except String Doc :=
  match w.cliFile with
  | some (.doc d) => .ok d
  | some .garbage =>
      .error ("Failed to parse " ++ ctx.settings.cli_config_filename)
  | none => .error ("Failed to read " ++ ctx.settings.cli_config_filename)

/-- `write_cli_toml`: serialize the whole document back; `fs::write` fails
when the parent directory does not exist. -/
def write_cli_toml (ctx : Ctx) (w : World) (d : Doc) : Except String World :=
  if w.cliDirExists then .ok { w with cliFile := some (.doc d) }
  else .error ("Failed to write " ++ ctx.settings.cli_config_filename)

/-- The snippet repeated in the Set, Switch and Admin arms: read the cli
config when its file exists, otherwise create the parent directories
(`fs::create_dir_all`) and start from a fresh `DocumentMut::new()`. -/
def open_or_new_cli (ctx : Ctx) (w : World) : Except String (World × Doc) :=
  match w.cliFile with
  | some _ =>
      match read_cli_toml ctx w with
      | .ok d => .ok (w, d)
      | .error e => .error e
  | none => .ok ({ w with cliDirExists := true }, [])

/-- `Commands::Set` arm: upsert the profile, write the store, then upsert
the active token key in the cli config document and write it. -/
def setCmd (ctx : Ctx) (name token : String) (w : World) :
    World × Option String :=
  match read_profiles ctx w with
  | .error e => (w, some e)
  | .ok (w1, profiles) =>
      let profiles1 := insertKV profiles name token
      let w2 := write_profiles ctx w1 profiles1
      match open_or_new_cli ctx w2 with
      | .error e => (w2, some e)
      | .ok (w3, d) =>
          match write_cli_toml ctx w3
              (setKey d ctx.settings.cli_token_key (.str token)) with
          | .error e => (w3, some e)
          | .ok w4 => (w4, none)

/-- `Commands::Switch` arm with a profile name given on the command line
(the interactive selection of the omitted-name branch is out of scope). -/
def switchCmd (ctx : Ctx) (name : String) (w : World) :
    World × Option String :=
  match read_profiles ctx w with
  | .error e => (w, some e)
  | .ok (w1, profiles) =>
      match lookupKV profiles name with
      | some token =>
          match open_or_new_cli ctx w1 with
          | .error e => (w1, some e)
          | .ok (w2, d) =>
              match write_cli_toml ctx w2
                  (setKey d ctx.settings.cli_token_key (.str token)) with
              | .error e => (w2, some e)
              | .ok w3 => (w3, none)
      | none => (w1, some "Profile not found in profiles file for switching.")

/-- `Commands::Admin` arm: a transliteration of the source arm, which
repeats the Switch logic with the literal name "admin" and its own
messages. -/
def adminCmd (ctx : Ctx) (w : World) : World × Option String :=
  let admin_profile_name := "admin"
  match read_profiles ctx w with
  | .error e => (w, some e)
  | .ok (w1, profiles) =>
      match lookupKV profiles admin_profile_name with
      | some token =>
          match open_or_new_cli ctx w1 with
          | .error e => (w1, some e)
          | .ok (w2, d) =>
              match write_cli_toml ctx w2
                  (setKey d ctx.settings.cli_token_key (.str token)) with
              | .error e => (w2, some e)
              | .ok w3 => (w3, none)
      | none => (w1, some "Admin profile not found.")

/-- `Commands::Save` arm: requires the cli config file to exist and parse;
bails with AlreadyExists before inspecting the token when the name is
already a key; otherwise copies the active token into a new profile. -/
def saveCmd (ctx : Ctx) (name : String) (w : World) : World × Option String :=
  match w.cliFile with
  | none =>
      (w, some (ctx.settings.cli_config_filename
        ++ " does not exist. Cannot save token."))
  | some _ =>
      match read_cli_toml ctx w with
      | .error e => (w, some e)
      | .ok d =>
          match read_profiles ctx w with
          | .error e => (w, some e)
          | .ok (w1, profiles) =>
              if containsKey profiles name then
                (w1, some ("Profile " ++ name ++ " already exists in "
                  ++ ctx.settings.profiles_filename
                  ++ ". Use a different name or delete the existing one first."))
              else
                match getKey d ctx.settings.cli_token_key with
                | some (.str token_str) =>
                    (write_profiles ctx w1 (insertKV profiles name token_str),
                      none)
                | some .nonStr =>
                    (w1, some ("Token key " ++ ctx.settings.cli_token_key
                      ++ " in " ++ ctx.settings.cli_config_filename
                      ++ " is not a string."))
                | none =>
                    (w1, some ("User is not logged in. Token key "
                      ++ ctx.settings.cli_token_key ++ " not found in "
                      ++ ctx.settings.cli_config_filename ++ "."))

/-- `mask_token`: tokens of length at most 10 are shown whole; longer ones
show the first five and last five characters joined by "...". -/
def mask_token (token : String) : String :=
  if token.length ≤ 10 then token
  else
    String.mk (token.toList.take 5) ++ "..."
      ++ String.mk (token.toList.drop (token.length - 5))

/-- The linear scan of the `Commands::Current` arm: the first profile (in
the mapping's iteration order) whose token equals the active token. -/
def firstProfileWithToken : Profiles → String → Option String
  | [], _ => none
  | (n, t) :: rest, tok =>
      if t = tok then some n else firstProfileWithToken rest tok

/-- `Commands::Current` arm: result state, printed report lines, and the
fatal error if any.  An absent cli config file, a missing token key and a
non-string token are all reported informational states with exit code 0. -/
def currentCmd (ctx : Ctx) (w : World) :
    World × List String × Option String :=
  match w.cliFile with
  | none =>
      (w, [ctx.settings.cli_config_filename ++ " not found. No active token set."],
        none)
  | some _ =>
      match read_cli_toml ctx w with
      | .error e => (w, [], some e)
      | .ok d =>
          match getKey d ctx.settings.cli_token_key with
          | some (.str active_token_str) =>
              match read_profiles ctx w with
              | .error e => (w, [], some e)
              | .ok (w1, profiles) =>
                  let report :=
                    match firstProfileWithToken profiles active_token_str with
                    | some name => "Current active profile: " ++ name
                    | none =>
                        "Current active token is set, but not found under any profile name in "
                          ++ ctx.settings.profiles_filename ++ "."
                  (w1, [report, "Active token: " ++ mask_token active_token_str],
                    none)
          | some .nonStr =>
              (w, ["Active token key " ++ ctx.settings.cli_token_key ++ " in "
                ++ ctx.settings.cli_config_filename ++ " is not a string."],
                none)
          | none =>
              (w, ["No active token (key " ++ ctx.settings.cli_token_key
                ++ ") found in " ++ ctx.settings.cli_config_filename ++ "."],
                none)

/-- Lexicographic order on character lists by code point (for UTF-8 text
this coincides with the byte-wise order `Vec::sort` uses on `String`s). -/
def lexLe : List Char → List Char → Bool
  | [], _ => true
  | _ :: _, [] => false
  | a :: as, b :: bs =>
      if a.val.toNat < b.val.toNat then true
      else if b.val.toNat < a.val.toNat then false
      else lexLe as bs

/-- The string order used by `sorted_profile_names.sort()`. -/
def strLe (a b : String) : Bool :=
  lexLe a.toList b.toList

/-- `strLe` as a decidable relation for `List.insertionSort`. -/
abbrev strLeRel : String → String → Prop := fun a b => strLe a b = true

/-- One displayed line of the `Commands::List` loop body. -/
def profileLine (profiles : Profiles) (active : Option String) (n : String) :
    String :=
  let display_name := "- " ++ n
  match active with
  | some active_token =>
      match lookupKV profiles n with
      | some user_token =>
          if user_token = active_token then display_name ++ " (current)"
          else display_name
      | none => display_name
  | none => display_name

/-- The per-profile lines printed by the `Commands::List` arm: profile
names sorted (`Vec::sort` on strings is lexicographic), each annotated with
" (current)" when its token equals the active external token. -/
def listLines (profiles : Profiles) (active : Option String) : List String :=
  (List.insertionSort strLeRel (profiles.map Prod.fst)).map
    (profileLine profiles active)

/-- The parsed profile store determined by the current file contents:
`some` mapping when `read_profiles` would succeed, `none` when it would
fail. -/
def profilesOf (ctx : Ctx) (w : World) : Option Profiles :=
  match w.profilesFile with
  | none => some []
  | some content =>
      if isBlank content then some [] else ctx.codec.parse content

/-- A concrete sample TOML codec (a lookup table), used to instantiate the
codec-parametric theorems on concrete inputs. -/
def testCodec : ProfilesCodec where
  parse := fun s =>
    if s = "" then some []
    else if s = "A" then some [("a", "tok1")]
    else if s = "AB" then some [("a", "tok1"), ("b", "tok2")]
    else none
  ser := fun m =>
    if m = [] then ""
    else if m = [("a", "tok1")] then "A"
    else if m = [("a", "tok1"), ("b", "tok2")] then "AB"
    else "#"

/-- A concrete context for witnesses. -/
def testCtx : Ctx :=
  { codec := testCodec, cfgDir := "/home/u/.config", settings := defaultSettings }

/-- A concrete external cli document with an unrelated key. -/
def testDoc : Doc :=
  [("other", .str "keep"), ("spacetimedb_token", .str "oldtok")]

/-- A concrete world where both files exist and parse. -/
def wDoc : World :=
  { profilesFile := some "A", cliFile := some (.doc testDoc), cliDirExists := true }

/-- A concrete world where both files are absent. -/
def wAbsent : World :=
  { profilesFile := none, cliFile := none, cliDirExists := false }

/-- A concrete world with an absent cli config file but a loadable store. -/
def wNoCli : World :=
  { profilesFile := some "A", cliFile := none, cliDirExists := false }

/-! ### Helper lemmas -/

/-- Upserting one key of the document leaves every other key's value
unchanged. -/
theorem getKey_setKey_ne (d : Doc) (key k : String) (item : Item)
    (h : k ≠ key) : getKey (setKey d key item) k = getKey d k := by
  induction d with
  | nil => simp [setKey, getKey, Ne.symm h]
  | cons hd tl ih =>
      obtain ⟨k0, v0⟩ := hd
      by_cases hk : k0 = key
      · subst hk
        simp [setKey, getKey, Ne.symm h]
      · simp [setKey, hk, getKey, ih]

/-- `read_profiles` in terms of the parsed store `profilesOf`. -/
theorem read_profiles_eq (ctx : Ctx) (w : World) :
    read_profiles ctx w =
      match profilesOf ctx w with
      | some m =>
          .ok ((match w.profilesFile with
                | none => { w with profilesFile := some "" }
                | some _ => w), m)
      | none =>
          .error ("Failed to parse profiles file at " ++ profilesPath ctx
            ++ ". Ensure it is valid TOML or empty.") := by
  unfold read_profiles profilesOf
  cases hpf : w.profilesFile with
  | none => simp
  | some content =>
      by_cases ht : isBlank content
      · simp [ht]
      · cases hp : ctx.codec.parse content <;> simp [ht, hp]

/-- A successful `read_profiles` leaves the world unchanged, except possibly
for creating the empty profiles file. -/
theorem read_profiles_ok_shape (ctx : Ctx) (w w1 : World) (m : Profiles)
    (h : read_profiles ctx w = .ok (w1, m)) :
    w1 = w ∨ w1 = { w with profilesFile := some "" } := by
  rw [read_profiles_eq] at h
  cases hm : profilesOf ctx w with
  | none => rw [hm] at h; exact Except.noConfusion h
  | some m0 =>
      rw [hm] at h
      cases hpf : w.profilesFile with
      | none =>
          rw [hpf] at h
          simp only [Except.ok.injEq, Prod.mk.injEq] at h
          exact Or.inr h.1.symm
      | some content =>
          rw [hpf] at h
          simp only [Except.ok.injEq, Prod.mk.injEq] at h
          exact Or.inl h.1.symm

/-- When the cli config file holds a parsable document, the shared
open-or-create snippet returns it with the world unchanged. -/
theorem open_or_new_cli_doc (ctx : Ctx) (w : World) (d : Doc)
    (hcli : w.cliFile = some (.doc d)) :
    open_or_new_cli ctx w = .ok (w, d) := by
  simp [open_or_new_cli, read_cli_toml, hcli]

/-- A successful `write_cli_toml` replaces exactly the cli document. -/
theorem write_cli_toml_ok (ctx : Ctx) (w w1 : World) (d : Doc)
    (h : write_cli_toml ctx w d = .ok w1) :
    w1 = { w with cliFile := some (.doc d) } := by
  unfold write_cli_toml at h
  split at h
  · simp only [Except.ok.injEq] at h
    exact h.symm
  · exact Except.noConfusion h

/-! ### C7: token masking -/

/-- C7: the display mask returns a token of length at most 10 unchanged,
and otherwise the first five characters, "...", and the last five
characters; in particular masking "0123456789ABCDEF" gives
"01234...BCDEF". -/
theorem mask_token_spec (t : String) :
    (t.length ≤ 10 → mask_token t = t) ∧
    (10 < t.length →
      mask_token t = String.mk (t.toList.take 5) ++ "..."
        ++ String.mk (t.toList.rtake 5)) ∧
    mask_token "0123456789ABCDEF" = "01234...BCDEF" := by
  refine ⟨fun h => by simp [mask_token, h], fun h => ?_, by decide⟩
  have hn : ¬ t.length ≤ 10 := by omega
  have hr : t.toList.rtake 5 = t.toList.drop (t.length - 5) := rfl
  rw [mask_token, if_neg hn, hr]

/-- Witness for C7 on concrete tokens of both shapes. -/
theorem mask_token_spec_witness :
    mask_token "short" = "short" ∧
    mask_token "0123456789ABCDEF" =
      String.mk ("0123456789ABCDEF".toList.take 5) ++ "..."
        ++ String.mk ("0123456789ABCDEF".toList.rtake 5) :=
  ⟨(mask_token_spec "short").1 (by decide),
   (mask_token_spec "0123456789ABCDEF").2.1 (by decide)⟩

/-! ### C2: profile store loading -/

/-- C2: loading the profile store creates an empty file and returns the
empty store when the file is absent, returns the empty store without
parsing when the content is only whitespace, returns the parsed mapping
otherwise, and on a parse failure produces an error message that names the
profiles file path. -/
theorem read_profiles_cases (ctx : Ctx) (w : World) :
    (w.profilesFile = none →
      read_profiles ctx w = .ok ({ w with profilesFile := some "" }, [])) ∧
    (∀ content, w.profilesFile = some content → isBlank content = true →
      read_profiles ctx w = .ok (w, [])) ∧
    (∀ content m, w.profilesFile = some content → isBlank content = false →
      ctx.codec.parse content = some m → read_profiles ctx w = .ok (w, m)) ∧
    (∀ content, w.profilesFile = some content → isBlank content = false →
      ctx.codec.parse content = none →
      ∃ pre post, read_profiles ctx w =
        .error (pre ++ profilesPath ctx ++ post)) := by
  refine ⟨fun h => ?_, fun content h ht => ?_, fun content m h ht hp => ?_,
    fun content h ht hp => ?_⟩
  · simp [read_profiles, h]
  · simp [read_profiles, h, ht]
  · simp [read_profiles, h, ht, hp]
  · exact ⟨"Failed to parse profiles file at ",
      ". Ensure it is valid TOML or empty.", by simp [read_profiles, h, ht, hp]⟩

/-- Witness for C2: an absent file and an unparsable file, on the concrete
context. -/
theorem read_profiles_cases_witness :
    read_profiles testCtx wAbsent =
      .ok ({ wAbsent with profilesFile := some "" }, []) ∧
    ∃ pre post,
      read_profiles testCtx { wAbsent with profilesFile := some "[broken" } =
        .error (pre ++ profilesPath testCtx ++ post) :=
  ⟨(read_profiles_cases testCtx wAbsent).1 rfl,
   (read_profiles_cases testCtx
      { wAbsent with profilesFile := some "[broken" }).2.2.2 "[broken" rfl
      (by decide) (by decide)⟩

/-! ### C3: save/load round trip -/

/-- C3: writing any mapping with `write_profiles` and loading it back with
`read_profiles` yields the original mapping, for any TOML library whose
parse inverts its serialization (with the empty mapping allowed to
serialize to whitespace). -/
theorem write_read_roundtrip (ctx : Ctx) (w : World) (m : Profiles)
    (h1 : ctx.codec.parse (ctx.codec.ser m) = some m)
    (h2 : isBlank (ctx.codec.ser m) = true → m = []) :
    read_profiles ctx (write_profiles ctx w m) =
      .ok (write_profiles ctx w m, m) := by
  unfold read_profiles write_profiles
  by_cases ht : isBlank (ctx.codec.ser m) = true
  · have hm := h2 ht
    subst hm
    simp [ht]
  · simp [Bool.not_eq_true] at ht
    simp [ht, h1]

/-- Witness for C3: round trip of both a nonempty mapping and the empty
mapping through the concrete codec. -/
theorem write_read_roundtrip_witness :
    read_profiles testCtx (write_profiles testCtx wAbsent [("a", "tok1")]) =
      .ok (write_profiles testCtx wAbsent [("a", "tok1")], [("a", "tok1")]) ∧
    read_profiles testCtx (write_profiles testCtx wAbsent []) =
      .ok (write_profiles testCtx wAbsent [], []) :=
  ⟨write_read_roundtrip testCtx wAbsent [("a", "tok1")] (by decide)
      (by decide),
   write_read_roundtrip testCtx wAbsent [] (by decide) (by decide)⟩

/-! ### C1: the active-token upsert touches only its own key -/

/-- A successful Set run over an existing parsable cli document leaves the
cli file holding exactly the upserted document. -/
theorem setCmd_ok_cliFile (ctx : Ctx) (name token : String) (w w1 : World)
    (d : Doc) (hcli : w.cliFile = some (.doc d))
    (h : setCmd ctx name token w = (w1, none)) :
    w1.cliFile = some (.doc (setKey d ctx.settings.cli_token_key (.str token))) := by
  unfold setCmd at h
  cases hrp : read_profiles ctx w with
  | error e => rw [hrp] at h; simp at h
  | ok p =>
      obtain ⟨w2, profiles⟩ := p
      rw [hrp] at h
      simp only [] at h
      have hc2 : w2.cliFile = w.cliFile := by
        rcases read_profiles_ok_shape ctx w w2 profiles hrp with he | he <;>
          rw [he]
      have hc3 : (write_profiles ctx w2 (insertKV profiles name token)).cliFile
          = some (.doc d) := by
        simpa [write_profiles, hc2] using hcli
      rw [open_or_new_cli_doc ctx _ d hc3] at h
      simp only [] at h
      cases hwc : write_cli_toml ctx (write_profiles ctx w2 (insertKV profiles name token))
          (setKey d ctx.settings.cli_token_key (.str token)) with
      | error e => rw [hwc] at h; simp at h
      | ok w4 =>
          rw [hwc] at h
          simp only [Prod.mk.injEq] at h
          rw [← h.1, write_cli_toml_ok ctx _ w4 _ hwc]

/-- A successful Switch run over an existing parsable cli document leaves
the cli file holding the document with only the token key upserted. -/
theorem switchCmd_ok_cliFile (ctx : Ctx) (name : String) (w w1 : World)
    (d : Doc) (hcli : w.cliFile = some (.doc d))
    (h : switchCmd ctx name w = (w1, none)) :
    ∃ token, w1.cliFile =
      some (.doc (setKey d ctx.settings.cli_token_key (.str token))) := by
  unfold switchCmd at h
  cases hrp : read_profiles ctx w with
  | error e => rw [hrp] at h; simp at h
  | ok p =>
      obtain ⟨w2, profiles⟩ := p
      rw [hrp] at h
      simp only [] at h
      have hc2 : w2.cliFile = some (.doc d) := by
        rcases read_profiles_ok_shape ctx w w2 profiles hrp with he | he <;>
          rw [he] <;> exact hcli
      cases hlk : lookupKV profiles name with
      | none => rw [hlk] at h; simp at h
      | some token =>
          rw [hlk] at h
          simp only [] at h
          rw [open_or_new_cli_doc ctx _ d hc2] at h
          simp only [] at h
          cases hwc : write_cli_toml ctx w2
              (setKey d ctx.settings.cli_token_key (.str token)) with
          | error e => rw [hwc] at h; simp at h
          | ok w4 =>
              rw [hwc] at h
              simp only [Prod.mk.injEq] at h
              exact ⟨token, by rw [← h.1, write_cli_toml_ok ctx _ w4 _ hwc]⟩

/-- A successful Admin run over an existing parsable cli document leaves
the cli file holding the document with only the token key upserted. -/
theorem adminCmd_ok_cliFile (ctx : Ctx) (w w1 : World)
    (d : Doc) (hcli : w.cliFile = some (.doc d))
    (h : adminCmd ctx w = (w1, none)) :
    ∃ token, w1.cliFile =
      some (.doc (setKey d ctx.settings.cli_token_key (.str token))) := by
  unfold adminCmd at h
  cases hrp : read_profiles ctx w with
  | error e => rw [hrp] at h; simp at h
  | ok p =>
      obtain ⟨w2, profiles⟩ := p
      rw [hrp] at h
      simp only [] at h
      have hc2 : w2.cliFile = some (.doc d) := by
        rcases read_profiles_ok_shape ctx w w2 profiles hrp with he | he <;>
          rw [he] <;> exact hcli
      cases hlk : lookupKV profiles "admin" with
      | none => rw [hlk] at h; simp at h
      | some token =>
          rw [hlk] at h
          simp only [] at h
          rw [open_or_new_cli_doc ctx _ d hc2] at h
          simp only [] at h
          cases hwc : write_cli_toml ctx w2
              (setKey d ctx.settings.cli_token_key (.str token)) with
          | error e => rw [hwc] at h; simp at h
          | ok w4 =>
              rw [hwc] at h
              simp only [Prod.mk.injEq] at h
              exact ⟨token, by rw [← h.1, write_cli_toml_ok ctx _ w4 _ hwc]⟩

/-- C1: when the Set, Switch or Admin handler writes the active token into
an existing external config document, every other key of the document keeps
its value in the written document. -/
theorem active_token_write_frame (ctx : Ctx) (name token k : String)
    (w : World) (d : Doc) (hcli : w.cliFile = some (.doc d))
    (hk : k ≠ ctx.settings.cli_token_key) :
    (∀ w1, setCmd ctx name token w = (w1, none) →
      ∃ d1, w1.cliFile = some (.doc d1) ∧ getKey d1 k = getKey d k) ∧
    (∀ w1, switchCmd ctx name w = (w1, none) →
      ∃ d1, w1.cliFile = some (.doc d1) ∧ getKey d1 k = getKey d k) ∧
    (∀ w1, adminCmd ctx w = (w1, none) →
      ∃ d1, w1.cliFile = some (.doc d1) ∧ getKey d1 k = getKey d k) := by
  refine ⟨fun w1 h => ?_, fun w1 h => ?_, fun w1 h => ?_⟩
  · exact ⟨_, setCmd_ok_cliFile ctx name token w w1 d hcli h,
      getKey_setKey_ne d _ k _ hk⟩
  · obtain ⟨token1, h1⟩ := switchCmd_ok_cliFile ctx name w w1 d hcli h
    exact ⟨_, h1, getKey_setKey_ne d _ k _ hk⟩
  · obtain ⟨token1, h1⟩ := adminCmd_ok_cliFile ctx w w1 d hcli h
    exact ⟨_, h1, getKey_setKey_ne d _ k _ hk⟩

/-- Witness for C1: a concrete Set run preserving the unrelated key
"other" of the concrete document. -/
theorem active_token_write_frame_witness :
    ∃ d1, ((setCmd testCtx "b" "tok9" wDoc).1).cliFile = some (.doc d1) ∧
      getKey d1 "other" = getKey testDoc "other" :=
  (active_token_write_frame testCtx "b" "tok9" "other" wDoc testDoc rfl
    (by decide)).1 (setCmd testCtx "b" "tok9" wDoc).1 (by decide)

/-! ### C8: Admin behaves as Switch with the name "admin" -/

/-- C8: on every store and external document state, the Admin handler
produces the same final file-system state as the Switch handler invoked
with the name "admin", and fails exactly when that Switch fails. -/
theorem admin_matches_switch_admin (ctx : Ctx) (w : World) :
    (adminCmd ctx w).1 = (switchCmd ctx "admin" w).1 ∧
    (adminCmd ctx w).2.isSome = (switchCmd ctx "admin" w).2.isSome := by
  unfold adminCmd switchCmd
  cases hrp : read_profiles ctx w with
  | error e => simp
  | ok p =>
      obtain ⟨w1, profiles⟩ := p
      cases hlk : lookupKV profiles "admin" with
      | none => simp [hlk]
      | some token =>
          cases hoc : open_or_new_cli ctx w1 with
          | error e => simp [hlk, hoc]
          | ok p2 =>
              obtain ⟨w2, d⟩ := p2
              cases hwc : write_cli_toml ctx w2
                  (setKey d ctx.settings.cli_token_key (.str token)) with
              | error e => simp [hlk, hoc, hwc]
              | ok w3 => simp [hlk, hoc, hwc]

/-! ### C4: switching to a missing profile -/

/-- C4: for every loadable store and every name that is not one of its
keys, Switch with that name fails with the not-found error and leaves the
external config document untouched. -/
theorem switch_missing_not_found (ctx : Ctx) (w : World) (m : Profiles)
    (name : String) (hm : profilesOf ctx w = some m)
    (habs : lookupKV m name = none) :
    (switchCmd ctx name w).2 =
      some "Profile not found in profiles file for switching." ∧
    (switchCmd ctx name w).1.cliFile = w.cliFile := by
  unfold switchCmd
  rw [read_profiles_eq, hm]
  simp only [habs]
  cases hpf : w.profilesFile <;> simp

/-- Witness for C4: switching to the absent profile "missing" on the
concrete world. -/
theorem switch_missing_not_found_witness :
    (switchCmd testCtx "missing" wDoc).2 =
      some "Profile not found in profiles file for switching." ∧
    (switchCmd testCtx "missing" wDoc).1.cliFile = wDoc.cliFile :=
  switch_missing_not_found testCtx wDoc [("a", "tok1")] "missing" (by decide)
    (by decide)

/-! ### C5: saving under an existing profile name -/

/-- C5: when the external document exists and the store already contains
the given name, Save fails with the already-exists error — whatever the
document's token value is — and the stored mapping is unchanged. -/
theorem save_existing_name (ctx : Ctx) (w : World) (d : Doc) (m : Profiles)
    (name : String) (hcli : w.cliFile = some (.doc d))
    (hm : profilesOf ctx w = some m) (hmem : containsKey m name = true) :
    (saveCmd ctx name w).2 = some ("Profile " ++ name ++ " already exists in "
      ++ ctx.settings.profiles_filename
      ++ ". Use a different name or delete the existing one first.") ∧
    profilesOf ctx (saveCmd ctx name w).1 = some m := by
  unfold saveCmd
  rw [hcli]
  simp only [read_cli_toml, hcli]
  rw [read_profiles_eq, hm]
  simp only [hmem, if_true]
  cases hpf : w.profilesFile with
  | none =>
      simp only [profilesOf, hpf] at hm
      have hm0 : m = [] := by simpa using hm.symm
      subst hm0
      simp [profilesOf, isBlank]
  | some content =>
      refine ⟨by simp, ?_⟩
      simpa using hm

/-- Witness for C5: saving under the existing name "a" on the concrete
world. -/
theorem save_existing_name_witness :
    (saveCmd testCtx "a" wDoc).2 = some ("Profile " ++ "a"
      ++ " already exists in " ++ testCtx.settings.profiles_filename
      ++ ". Use a different name or delete the existing one first.") ∧
    profilesOf testCtx (saveCmd testCtx "a" wDoc).1 = some [("a", "tok1")] :=
  save_existing_name testCtx wDoc testDoc [("a", "tok1")] "a" rfl (by decide)
    (by decide)

/-! ### C9: the Current command is informational -/

/-- C9: Current exits successfully and leaves both files untouched when
the external config file is absent, when the token key is missing, and
when the token key holds a non-string value; it is fatal only on an
unparsable existing external file or a failing profile-store load. -/
theorem current_informational (ctx : Ctx) (w : World) :
    (w.cliFile = none → currentCmd ctx w =
      (w, [ctx.settings.cli_config_filename ++ " not found. No active token set."],
        none)) ∧
    (∀ d, w.cliFile = some (.doc d) →
      getKey d ctx.settings.cli_token_key = none →
      currentCmd ctx w = (w, ["No active token (key " ++ ctx.settings.cli_token_key
        ++ ") found in " ++ ctx.settings.cli_config_filename ++ "."], none)) ∧
    (∀ d, w.cliFile = some (.doc d) →
      getKey d ctx.settings.cli_token_key = some .nonStr →
      currentCmd ctx w = (w, ["Active token key " ++ ctx.settings.cli_token_key
        ++ " in " ++ ctx.settings.cli_config_filename ++ " is not a string."],
        none)) ∧
    (∀ w1 out e, currentCmd ctx w = (w1, out, some e) →
      w.cliFile = some .garbage ∨ profilesOf ctx w = none) := by
  refine ⟨fun h => by simp [currentCmd, h],
    fun d h hk => by simp [currentCmd, read_cli_toml, h, hk],
    fun d h hk => by simp [currentCmd, read_cli_toml, h, hk],
    fun w1 out e h => ?_⟩
  unfold currentCmd at h
  cases hc : w.cliFile with
  | none => rw [hc] at h; simp at h
  | some content =>
      cases content with
      | garbage => exact Or.inl rfl
      | doc d =>
          simp only [hc, read_cli_toml] at h
          cases hk : getKey d ctx.settings.cli_token_key with
          | none => simp [hk] at h
          | some it =>
              cases it with
              | nonStr => simp [hk] at h
              | str tok =>
                  simp only [hk] at h
                  rw [read_profiles_eq] at h
                  cases hm : profilesOf ctx w with
                  | some m => rw [hm] at h; simp at h
                  | none => exact Or.inr rfl

/-- Witness for C9: the absent external config file on the concrete
context. -/
theorem current_informational_witness :
    currentCmd testCtx wAbsent =
      (wAbsent, [testCtx.settings.cli_config_filename
        ++ " not found. No active token set."], none) :=
  (current_informational testCtx wAbsent).1 rfl

/-! ### C10: set and switch with an absent external config file -/

/-- C10: when the external config file is absent but the store loads, Set
(with any name and token) and Switch (with a name bound in the store)
succeed, create the missing parent directories, and write a fresh document
holding exactly the token key bound to the chosen token. -/
theorem absent_cli_creates_doc (ctx : Ctx) (w : World) (m : Profiles)
    (name tok2 : String) (hcli : w.cliFile = none)
    (hm : profilesOf ctx w = some m) (hlook : lookupKV m name = some tok2) :
    (∀ name2 token2, ∃ w1, setCmd ctx name2 token2 w = (w1, none) ∧
      w1.cliDirExists = true ∧
      w1.cliFile = some (.doc [(ctx.settings.cli_token_key, .str token2)])) ∧
    (∃ w2, switchCmd ctx name w = (w2, none) ∧ w2.cliDirExists = true ∧
      w2.cliFile = some (.doc [(ctx.settings.cli_token_key, .str tok2)])) := by
  constructor
  · intro name2 token2
    unfold setCmd
    rw [read_profiles_eq, hm]
    cases hpf : w.profilesFile <;>
      simp [open_or_new_cli, write_profiles, write_cli_toml, setKey, hcli]
  · unfold switchCmd
    rw [read_profiles_eq, hm]
    simp only [hlook]
    cases hpf : w.profilesFile <;>
      simp [open_or_new_cli, write_profiles, write_cli_toml, setKey, hcli]

/-- Witness for C10: Set and Switch on the concrete world without an
external config file. -/
theorem absent_cli_creates_doc_witness :
    (∃ w1, setCmd testCtx "x" "newtok" wNoCli = (w1, none) ∧
      w1.cliDirExists = true ∧
      w1.cliFile = some (.doc [(testCtx.settings.cli_token_key,
        .str "newtok")])) ∧
    (∃ w2, switchCmd testCtx "a" wNoCli = (w2, none) ∧
      w2.cliDirExists = true ∧
      w2.cliFile = some (.doc [(testCtx.settings.cli_token_key,
        .str "tok1")])) :=
  ⟨(absent_cli_creates_doc testCtx wNoCli [("a", "tok1")] "a" "tok1" rfl
      (by decide) (by decide)).1 "x" "newtok",
   (absent_cli_creates_doc testCtx wNoCli [("a", "tok1")] "a" "tok1" rfl
      (by decide) (by decide)).2⟩

/-! ### C6: the List command's annotation -/

/-- The code-point lexicographic order is total. -/
theorem lexLe_total : ∀ a b : List Char, lexLe a b = true ∨ lexLe b a = true
  | [], _ => Or.inl rfl
  | _ :: _, [] => Or.inr rfl
  | a :: as, b :: bs => by
      by_cases h1 : a.val.toNat < b.val.toNat
      · left; simp [lexLe, h1]
      · by_cases h2 : b.val.toNat < a.val.toNat
        · right; simp [lexLe, h2]
        · rcases lexLe_total as bs with h | h
          · left; simp [lexLe, h1, h2, h]
          · right; simp [lexLe, h1, h2, h]

/-- The code-point lexicographic order is transitive. -/
theorem lexLe_trans : ∀ a b c : List Char, lexLe a b = true →
    lexLe b c = true → lexLe a c = true
  | [], _, _, _, _ => rfl
  | _ :: _, [], _, h1, _ => by simp [lexLe] at h1
  | _ :: _, _ :: _, [], _, h2 => by simp [lexLe] at h2
  | a :: as, b :: bs, c :: cs, h1, h2 => by
      simp only [lexLe] at h1 h2 ⊢
      by_cases hab : a.val.toNat < b.val.toNat
      · by_cases hbc : b.val.toNat < c.val.toNat
        · simp [Nat.lt_trans hab hbc]
        · by_cases hcb : c.val.toNat < b.val.toNat
          · rw [if_neg hbc, if_pos hcb] at h2
            exact Bool.noConfusion h2
          · have hac : a.val.toNat < c.val.toNat := by omega
            simp [hac]
      · by_cases hba : b.val.toNat < a.val.toNat
        · rw [if_neg hab, if_pos hba] at h1
          exact Bool.noConfusion h1
        · rw [if_neg hab, if_neg hba] at h1
          by_cases hbc : b.val.toNat < c.val.toNat
          · have hac : a.val.toNat < c.val.toNat := by omega
            simp [hac]
          · by_cases hcb : c.val.toNat < b.val.toNat
            · rw [if_neg hbc, if_pos hcb] at h2
              exact Bool.noConfusion h2
            · rw [if_neg hbc, if_neg hcb] at h2
              have hac : ¬ a.val.toNat < c.val.toNat := by omega
              have hca : ¬ c.val.toNat < a.val.toNat := by omega
              rw [if_neg hac, if_neg hca]
              exact lexLe_trans as bs cs h1 h2

/-- A List line is annotated exactly when the profile's token equals the
active token. -/
theorem profileLine_eq (profiles : Profiles) (active n : String) :
    profileLine profiles (some active) n =
      if lookupKV profiles n = some active then "- " ++ n ++ " (current)"
      else "- " ++ n := by
  unfold profileLine
  cases hlk : lookupKV profiles n with
  | none => simp
  | some t =>
      by_cases ht : t = active
      · simp [ht]
      · simp [ht]

/-- C6 counterexample: when two profiles share the active token, the List
arm annotates every matching profile, not only the first one in sorted
order. -/
theorem list_marks_second_match_cex :
    listLines [("a", "t"), ("b", "t")] (some "t") =
      ["- a (current)", "- b (current)"] ∧
    listLines [("a", "t"), ("b", "t")] (some "t") ≠
      ["- a (current)", "- b"] := by
  constructor <;> decide

/-- C6 (amended): List prints all profile names sorted lexicographically
and annotates as "current" every profile whose token equals the active
external token (so when exactly one profile matches, only it is
annotated). -/
theorem list_lines_sorted_marks_matches (profiles : Profiles)
    (active : String) :
    listLines profiles (some active) =
      (List.insertionSort strLeRel (profiles.map Prod.fst)).map
        (fun n => if lookupKV profiles n = some active
          then "- " ++ n ++ " (current)" else "- " ++ n) ∧
    (List.insertionSort strLeRel (profiles.map Prod.fst)).Sorted strLeRel ∧
    (List.insertionSort strLeRel (profiles.map Prod.fst)).Perm
      (profiles.map Prod.fst) := by
  haveI : IsTotal String strLeRel :=
    ⟨fun a b => lexLe_total a.toList b.toList⟩
  haveI : IsTrans String strLeRel :=
    ⟨fun a b c h1 h2 => lexLe_trans a.toList b.toList c.toList h1 h2⟩
  refine ⟨?_, List.sorted_insertionSort _ _, List.perm_insertionSort _ _⟩
  unfold listLines
  have hfun : profileLine profiles (some active) = fun n =>
      if lookupKV profiles n = some active then "- " ++ n ++ " (current)"
      else "- " ++ n := funext (profileLine_eq profiles active)
  rw [hfun]
